import Mathlib

/-!
Shallow embedding of two MindInsight UI components:

* the profiling HelperPanel (single-file component: data, mounted hook,
  getDataOfProfileHelper, adviceToShow, adviceChange, getAdvisorProposer),
* the SvgFrame wrapper (svg-wrapper.vue: data, mounted hook, gated template).

JavaScript runtime values are modelled by the inductive type JVal.  Numbers
are modelled as integers plus an explicit NaN marker (fractional values are
abstracted; every numeric literal exercised by the claims is an integer).
The JS null value is not distinguished from undefined.  Thrown exceptions
(all TypeErrors in this code: property access on undefined, destructuring a
non-iterable, forEach on a non-array, and calling the nonexistent method
relpace) are modelled by an explicit error outcome.
-/

inductive JSErr where
  | typeError
deriving DecidableEq

inductive JVal where
  | undef : JVal
  | nan : JVal
  | bool : Bool → JVal
  | num : Int → JVal
  | str : String → JVal
  | list : List JVal → JVal
  | obj : List (String × JVal) → JVal

/-- JS truthiness: undefined, NaN, false, 0 and the empty string are falsy;
every array and object (including the empty array) is truthy. -/
def jsTruthy : JVal → Bool
  | JVal.undef => false
  | .nan => false
  | .bool b => b
  | .num n => n != 0
  | .str s => s ≠ ""
  | .list _ => true
  | .obj _ => true

/-- JS ToString of the primitive shapes met by the panel. -/
def jsToStringAtom : JVal → String
  | JVal.undef => "undefined"
  | .nan => "NaN"
  | .bool b => if b then "true" else "false"
  | .num n => toString n
  | .str s => s
  | .list _ => ""
  | .obj _ => "[object Object]"

/-- JS ToString as used by template literals.  Arrays stringify by joining
their elements with commas; the stringification of elements that are
themselves arrays or objects is abstracted (one level deep is all the panel
can meet, and no claim exercises even that). -/
def jsToString : JVal → String
  | .list xs => String.intercalate "," (xs.map jsToStringAtom)
  | v => jsToStringAtom v

/-- Whitespace recognized when a string is coerced to a number. -/
def isSpaceChar (c : Char) : Bool := c = ' ' || c = '\t' || c = '\n' || c = '\r'

/-- Trim of both ends of a character list. -/
def trimChars (l : List Char) : List Char :=
  ((l.dropWhile isSpaceChar).reverse.dropWhile isSpaceChar).reverse

/-- Accumulating decimal digit parse; fails on any non-digit. -/
def digitsValAux : List Char → Nat → Option Nat
  | [], acc => some acc
  | c :: rest, acc =>
    if c.isDigit then digitsValAux rest (acc * 10 + (c.toNat - 48)) else none

/-- Parse of a nonempty all-digit character list. -/
def parseNat : List Char → Option Nat
  | [] => none
  | l => digitsValAux l 0

/-- The Number() coercion of a string, for the integer shapes the panel can
meet: blank strings are 0, an optional sign followed by digits parses, and
anything else (such as the dash placeholder) is NaN. -/
def jsParseNumber (s : String) : Option Int :=
  match trimChars s.toList with
  | [] => some 0
  | '-' :: rest => (parseNat rest).map (fun n => -(n : Int))
  | '+' :: rest => (parseNat rest).map (fun n => (n : Int))
  | l => (parseNat l).map (fun n => (n : Int))

/-- JS ToNumber restricted to the shapes the panel meets: numbers map to
themselves, NaN and undefined to nothing, booleans to 0 or 1, strings parse
as integers.  Array and object coercion is abstracted to NaN. -/
def toNumberOpt : JVal → Option Int
  | .num n => some n
  | .nan => none
  | JVal.undef => none
  | .bool b => some (if b then 1 else 0)
  | .str s => jsParseNumber s
  | .list _ => none
  | .obj _ => none

/-- The comparison v >= 0 (false whenever v does not coerce to a number,
matching NaN comparison semantics). -/
def jsGE0 (v : JVal) : Bool :=
  match toNumberOpt v with
  | some x => decide (0 ≤ x)
  | none => false

/-- The comparison a > b (false whenever either side coerces to NaN). -/
def jsGT (a b : JVal) : Bool :=
  match toNumberOpt a, toNumberOpt b with
  | some x, some y => decide (y < x)
  | _, _ => false

/-- JS subtraction a - b: numeric coercion of both operands, NaN if either
fails; this is the operator applied to the dash placeholder string. -/
def jsSub (a b : JVal) : JVal :=
  match toNumberOpt a, toNumberOpt b with
  | some x, some y => .num (x - y)
  | _, _ => .nan

/-- Field lookup on an object literal (absent fields read as undefined). -/
def objGet (fields : List (String × JVal)) (k : String) : JVal :=
  match fields.lookup k with
  | some v => v
  | none => JVal.undef

/-- Property access v.p: throws a TypeError on undefined, exposes length on
strings and arrays, reads fields of objects and yields undefined on the
remaining primitives. -/
def jsGetProp : JVal → String → Except JSErr JVal
  | JVal.undef, _ => .error .typeError
  | .nan, _ => .ok JVal.undef
  | .bool _, _ => .ok JVal.undef
  | .num _, _ => .ok JVal.undef
  | .str s, p => .ok (if p = "length" then .num s.length else JVal.undef)
  | .list xs, p => .ok (if p = "length" then .num xs.length else JVal.undef)
  | .obj fs, p => .ok (objGet fs p)

/-- Index access v[i]: throws a TypeError on undefined, reads array elements
and string characters, yields undefined elsewhere and out of range. -/
def jsIndex : JVal → Nat → Except JSErr JVal
  | JVal.undef, _ => .error .typeError
  | .list xs, i => .ok (xs.getD i JVal.undef)
  | .str s, i => .ok (match s.toList.get? i with
      | some c => .str (String.singleton c)
      | none => JVal.undef)
  | .nan, _ => .ok JVal.undef
  | .bool _, _ => .ok JVal.undef
  | .num _, _ => .ok JVal.undef
  | .obj fs, _ => .ok (objGet fs "0")

/-- Total variant of jsIndex (used only to state characterizations). -/
def jsIndexD (v : JVal) (i : Nat) : JVal :=
  match jsIndex v i with
  | .ok x => x
  | .error _ => JVal.undef

/-- v.hasOwnProperty(p): throws on undefined, true exactly for present
object fields, false on other primitives. -/
def jsHasOwn : JVal → String → Except JSErr Bool
  | JVal.undef, _ => .error .typeError
  | .obj fs, p => .ok ((fs.lookup p).isSome)
  | _, _ => .ok false

/-- Array destructuring of the first two positions, const [a, b] = v:
arrays and strings are iterable, everything else throws a TypeError. -/
def jsDestr2 : JVal → Except JSErr (JVal × JVal)
  | .list xs => .ok (xs.getD 0 JVal.undef, xs.getD 1 JVal.undef)
  | .str s => .ok
      ((match s.toList.get? 0 with
        | some c => .str (String.singleton c)
        | none => JVal.undef),
       (match s.toList.get? 1 with
        | some c => .str (String.singleton c)
        | none => JVal.undef))
  | _ => .error .typeError

/-- String.prototype.endsWith, written over character lists so that closed
instances reduce. -/
def jsEndsWith (s suffix : String) : Bool := suffix.toList.isSuffixOf s.toList

/-- Strict equality v === lit for a string literal lit. -/
def jvalIsStr (v : JVal) (s : String) : Bool :=
  match v with
  | .str t => t = s
  | _ => false

/-- Replacement of the leftmost occurrence of pat, over character lists so
that closed instances reduce. -/
def replaceFirstAux (pat rep : List Char) : List Char → List Char
  | [] => []
  | c :: rest =>
    if pat.isPrefixOf (c :: rest) then rep ++ (c :: rest).drop pat.length
    else c :: replaceFirstAux pat rep rest

/-- String.prototype.replace with a plain-string pattern replaces only the
first (leftmost) occurrence.  The empty source string and the empty pattern
are edge cases no call site can produce (every pattern is a brace token). -/
def replaceFirst (s pat rep : String) : String :=
  String.mk (replaceFirstAux pat.toList rep.toList s.toList)

/-- vue-i18n named interpolation: every named token of the message is
replaced by the stringification of the corresponding field of the argument
object. -/
def namedInterp (template : String) (args : JVal) : String :=
  match args with
  | .obj fs => fs.foldl
      (fun acc kv => acc.replace ("\x7b" ++ kv.1 ++ "\x7d") (jsToString kv.2)) template
  | _ => template

/-! ## HelperPanel constants and fragment builders

The markup strings below reproduce the template literals of the component;
whitespace between HTML tags (layout indentation in the source literals) is
normalized away, which affects no claim. -/

/-- data.tipsArrayList of the component. -/
def tipsArrayList : List String :=
  ["step_trace-iter_interval",
   "minddata_pipeline-general",
   "minddata_pipeline-dataset_op",
   "minddata_pipeline-generator_op",
   "minddata_pipeline-map_op",
   "minddata_pipeline-batch_op",
   "minddata_cpu_utilization",
   "minddata_device_queue_rate"]

/-- data.moreParameter of the component. -/
def moreParameter : List String :=
  ["minddata_device_queue", "minddata_get_next_queue", "device_queue_warning"]

/-- The fixed recommendation title compared against extendtitle. -/
def recommendTitle : String := "Recommendations of aicpu operations optimization:"

/-- Titled suggestion fragment (the type_label branch). -/
def suggestedFrag (desc : String) : String :=
  "<div class=\"suggested-items-style\"><div class=\"helper-icon\"></div><div class=\"helper-container-title\">"
    ++ desc ++ "</div></div>"

/-- Ordinary content fragment with the caret icon. -/
def contentFrag (content : String) : String :=
  "<div class=\"content-style\"><div class=\"content-icon el-icon-caret-right\"></div><div class=\"helper-content-style\">"
    ++ content ++ "</div></div>"

/-- Bare default fragment (final else branch: desc without icon wrapper). -/
def plainFrag (desc : String) : String :=
  "<div class=\"content-style\">" ++ desc ++ "</div>"

/-- The no-line-wrap span placed around each queue placeholder value. -/
def nowrapSpan (s : String) : String :=
  "<span class=\"nowrap-style\"> " ++ s ++ "</span>"

/-- Single-anchor fragment: the whole description wrapped in a hyperlink. -/
def anchorFrag (url desc : String) : String :=
  "<div class=\"content-style\"><div class=\"content-icon el-icon-caret-right\"></div><div class=\"helper-content-style\"><a target=\"_blank\" href=\""
    ++ url ++ "\">" ++ desc ++ "</a></div></div>"

/-! ## getAdvisorProposer

Translation of the getAdvisorProposer method.  Its second JS parameter is
the fixed string AICPUModel at the only call site.  The parameter a below
is the live value of the localized list profiling.adviceDetails read inside
the detail loop. -/

/-- Output of getAdvisorProposer: the detail blocks, the two advisory flag
assignments performed (each only ever set to true), and whether a TypeError
was thrown.  On a throw the contents are discarded by the caller. -/
structure AdvOut where
  contents : List String
  setOpt : Bool
  setNotOpt : Bool
  err : Bool

/-- The inner forEach over item.value[0]: each iteration appends one
paragraph holding the localized ordinal text adviceDetails[index]. -/
def detailLoop (a : JVal) : List JVal → Nat → Except JSErr String
  | [], _ => .ok ""
  | _ :: rest, i =>
    match jsIndex a i with
    | .error e => .error e
    | .ok part =>
      match detailLoop a rest (i + 1) with
      | .error e => .error e
      | .ok restS => .ok ("<p>" ++ jsToString part ++ "</p>" ++ restS)

/-- One iteration of the forEach over data[AICPUModel].extend: entries whose
extendtitle strictly equals the fixed recommendation title contribute one
detail block. -/
def advisorEntry (a : JVal) (entry : JVal) : Except JSErr (Option String) :=
  match jsHasOwn entry "extendtitle" with
  | .error e => .error e
  | .ok false => .ok none
  | .ok true =>
    match jsGetProp entry "extendtitle" with
    | .error e => .error e
    | .ok t =>
      if jvalIsStr t recommendTitle then
        match jsGetProp entry "value" with
        | .error e => .error e
        | .ok vv =>
          match jsIndex vv 0 with
          | .error e => .error e
          | .ok v0 =>
            match v0 with
            | .list vals =>
              match detailLoop a vals 0 with
              | .error e => .error e
              | .ok body =>
                .ok (some ("<span class=\"expert-advice\"><span class=\"advice-detail\">"
                  ++ body ++ "</span></span>"))
            | _ => .error .typeError
      else .ok none

/-- The forEach over the extend list; a thrown TypeError aborts it (the
contents assembled so far are then never written anywhere). -/
def advisorFold (a : JVal) : List JVal → List String × Bool
  | [] => ([], false)
  | e :: rest =>
    match advisorEntry a e with
    | .error _ => ([], true)
    | .ok none => advisorFold a rest
    | .ok (some d) => (d :: (advisorFold a rest).1, (advisorFold a rest).2)

/-- getAdvisorProposer(data, 'AICPUModel').  Reading extend of an undefined
AICPUModel entry throws before any flag is set; the optimize flag is set
before the forEach and therefore survives a throw inside it. -/
def getAdvisorProposer (a dataV : JVal) : AdvOut :=
  match jsGetProp dataV "AICPUModel" with
  | .error _ => ⟨[], false, false, true⟩
  | .ok aicpu =>
    match jsHasOwn aicpu "extend" with
    | .error _ => ⟨[], false, false, true⟩
    | .ok false => ⟨[], false, true, false⟩
    | .ok true =>
      match jsGetProp aicpu "extend" with
      | .error _ => ⟨[], true, false, true⟩
      | .ok ext =>
        match ext with
        | .list entries =>
          ⟨(advisorFold a entries).1, true, false, (advisorFold a entries).2⟩
        | _ => ⟨[], true, false, true⟩

/-! ## The per-field dispatch of getDataOfProfileHelper

Each Object.keys iteration is split into

* the live-table mutation guarded by the first plain if statement
  (stepTable below), and
* the else-if rendering chain (stepEffect below).

stepEffect receives the two localized-table reads the chain can perform:
own, the value of the live profiling table at the field name item itself
(read after the possible mutation), and a, the value of the table at
adviceDetails (only the advisor-proposer branch reads it).  All other data
the chain touches comes from the response value v of the field. -/

/-- The outcome of one iteration of the rendering chain: at most one
fragment pushed to innerHTMLs, an optional wholesale write to the
ms-advice-content container, the two advisory flag assignments, and whether
a TypeError was thrown (aborting the whole forEach). -/
structure StepEff where
  frag : Option String
  advice : Option String
  setOpt : Bool
  setNotOpt : Bool
  err : Bool
deriving DecidableEq

def noEff : StepEff := ⟨none, none, false, false, false⟩

def errEff : StepEff := ⟨none, none, false, false, true⟩

def fragEff (s : String) : StepEff := ⟨some s, none, false, false, false⟩

/-- vue-i18n lookup of the path profiling.k.sub with named arguments, where
own is the live value of profiling at k: a missing or non-string message
falls back to returning the path itself. -/
def tNamedOwn (own : JVal) (k sub : String) (args : JVal) : String :=
  match own with
  | .obj fs =>
    match objGet fs sub with
    | .str s => namedInterp s args
    | _ => "profiling." ++ k ++ "." ++ sub
  | _ => "profiling." ++ k ++ "." ++ sub

/-- The two structurally identical queue branches (minddata_device_queue and
minddata_get_next_queue): destructure the value as [start, end], render
negative or missing sides as the dash placeholder, and substitute the four
placeholder tokens with start, end, end minus start and end, each inside a
no-wrap span.  The delta is JS subtraction on the already substituted
values, so a dash operand yields NaN. -/
def queueEff (own v : JVal) : StepEff :=
  match jsDestr2 v with
  | .error _ => errEff
  | .ok (queueStart, queueEnd) =>
    let emptyV := if jsGE0 queueStart then queueStart else .str "--"
    let totalV := if jsGE0 queueEnd then queueEnd else .str "--"
    match jsGetProp own "desc" with
    | .error _ => errEff
    | .ok d =>
      fragEff (contentFrag
        (replaceFirst
          (replaceFirst
            (replaceFirst
              (replaceFirst (jsToString d) "\x7bn1\x7d" (nowrapSpan (jsToString emptyV)))
              "\x7bn2\x7d" (nowrapSpan (jsToString totalV)))
            "\x7bn3\x7d" (nowrapSpan (jsToString (jsSub totalV emptyV))))
          "\x7bn4\x7d" (nowrapSpan (jsToString totalV))))

/-- Strict test anchor.length === 1. -/
def jsLenIsOne (anc : JVal) : Bool :=
  match jsGetProp anc "length" with
  | .ok (.num n) => n = 1
  | _ => false

/-- Loop bound of for (let i = 0; i < anchorList.length; i++) with the JS
numeric coercion of the comparison. -/
def anchorLoopCount (anc : JVal) : Int :=
  match jsGetProp anc "length" with
  | .ok l =>
    match toNumberOpt l with
    | some n => n
    | none => 0
  | .error _ => 0

/-- The tail of the chain shared by every field that reaches it: if the
localized descriptor has a truthy anchor property, one anchor wraps the
whole description in a hyperlink to the first configured url; with any
other anchor count the loop body calls the nonexistent string method
relpace, so the first iteration throws a TypeError (zero iterations fall
through and push the raw description).  Without a truthy anchor the
description is pushed bare. -/
def anchorOrDefault (own : JVal) : StepEff :=
  match jsGetProp own "anchor" with
  | .error _ => errEff
  | .ok anc =>
    if jsTruthy anc then
      if jsLenIsOne anc then
        match jsGetProp own "url" with
        | .error _ => errEff
        | .ok u =>
          match jsIndex u 0 with
          | .error _ => errEff
          | .ok u0 =>
            match jsGetProp own "desc" with
            | .error _ => errEff
            | .ok d => fragEff (anchorFrag (jsToString u0) (jsToString d))
      else
        match jsGetProp own "desc" with
        | .error _ => errEff
        | .ok d =>
          if 0 < anchorLoopCount anc then errEff
          else fragEff (contentFrag (jsToString d))
    else
      match jsGetProp own "desc" with
      | .error _ => errEff
      | .ok d => fragEff (plainFrag (jsToString d))

/-- The advisor-proposer branch: contents go to the ms-advice-content
container (never to innerHTMLs); a throw keeps the flags already set and
skips the container write. -/
def advisorEff (a v : JVal) : StepEff :=
  match getAdvisorProposer a v with
  | r =>
    if r.err then ⟨none, none, r.setOpt, r.setNotOpt, true⟩
    else ⟨none, some (String.join r.contents), r.setOpt, r.setNotOpt, false⟩

/-- The full else-if rendering chain for one field name k with response
value v. -/
def stepEffect (own a : JVal) (k : String) (v : JVal) : StepEff :=
  if jsEndsWith k "type_label" = true ∧ k ≠ "msadvisor-proposer_type_label" then
    match jsGetProp own "desc" with
    | .error _ => errEff
    | .ok d => fragEff (suggestedFrag (jsToString d))
  else if k ∈ tipsArrayList then
    if k = "minddata_device_queue_rate" then
      match jsGetProp v "empty_rate" with
      | .error _ => errEff
      | .ok er =>
        match jsGetProp v "empty_warning_threshold" with
        | .error _ => errEff
        | .ok et =>
          fragEff (contentFrag
            (if jsGT er et then tNamedOwn own k "empty_rate" v
             else tNamedOwn own k "empty_warning_threshold" v))
    else
      match jsGetProp own "desc" with
      | .error _ => errEff
      | .ok d =>
        match jsIndex v 0 with
        | .error _ => errEff
        | .ok x =>
          fragEff (contentFrag (replaceFirst (jsToString d) "\x7bn1\x7d" (jsToString x)))
  else if k = "minddata_device_queue" ∨ k = "minddata_get_next_queue" then
    queueEff own v
  else if k = "device_queue_warning" then
    match jsGetProp v "length" with
    | .error _ => errEff
    | .ok len =>
      if jsTruthy len then
        match jsGetProp own "desc" with
        | .error _ => errEff
        | .ok d => fragEff (contentFrag (jsToString d))
      else anchorOrDefault own
  else if k = "msadvisor-proposer_type_label" ∨ k = "msadvisor-proposer" then
    if k = "msadvisor-proposer" then advisorEff a v
    else noEff
  else anchorOrDefault own

/-! ## The forEach over Object.keys and the surrounding fetch handler -/

/-- The mutation guard of the first plain if statement: unknown field names
with truthy values are written into the live localized table. -/
def condMut (k : String) (v : JVal) : Bool :=
  !tipsArrayList.contains k && !moreParameter.contains k && jsTruthy v

/-- Effect of one iteration on the live profiling table. -/
def stepTable (T : String → JVal) (k : String) (v : JVal) : String → JVal :=
  if condMut k v then (fun q => if q = k then v else T q) else T

/-- Accumulated observable effects of a forEach run: the fragments pushed
to innerHTMLs, the successive helper-tips innerHTML writes (one per
successfully completed iteration), the last ms-advice-content write, the
advisory flag assignments, and whether a TypeError aborted the run. -/
structure RunEff where
  frags : List String
  writes : List String
  advice : Option String
  setOpt : Bool
  setNotOpt : Bool
  err : Bool
deriving DecidableEq

def emptyEff : RunEff := ⟨[], [], none, false, false, false⟩

/-- Effects of an iteration that threw: nothing pushed or written in it,
but flag assignments made before the throw survive. -/
def mkErrEff (e : StepEff) : RunEff := ⟨[], [], none, e.setOpt, e.setNotOpt, true⟩

/-- Combination of a completed iteration with the effects of the remaining
iterations; acc holds the innerHTMLs contents before this iteration, and the
iteration ends by writing the joined list into helper-tips. -/
def mkConsEff (e : StepEff) (acc : List String) (re : RunEff) : RunEff :=
  ⟨e.frag.toList ++ re.frags,
   String.join (acc ++ e.frag.toList) :: re.writes,
   (match re.advice with
    | some x => some x
    | none => e.advice),
   e.setOpt || re.setOpt,
   e.setNotOpt || re.setNotOpt,
   re.err⟩

/-- The rendering-chain effect of the iteration for field k: the live table
is first mutated (stepTable), then read at k itself and at adviceDetails. -/
def runStepEff (res : List (String × JVal)) (T : String → JVal) (k : String) : StepEff :=
  stepEffect (stepTable T k (objGet res k) k)
    (stepTable T k (objGet res k) "adviceDetails") k (objGet res k)

/-- The Object.keys(res.data).forEach dispatch: res holds the fields of
res.data, T the live profiling table, acc the innerHTMLs list built so far,
and the final component is the table after the run.  The adviceDetails read
happens on the live table of the current iteration. -/
def runItems (res : List (String × JVal)) :
    (String → JVal) → List String → List String → RunEff × (String → JVal)
  | T, _acc, [] => (emptyEff, T)
  | T, acc, k :: rest =>
    let e := runStepEff res T k
    let T' := stepTable T k (objGet res k)
    if e.err then (mkErrEff e, T')
    else
      let r := runItems res T' (acc ++ e.frag.toList) rest
      (mkConsEff e acc r.1, r.2)

/-- Component state touched by getDataOfProfileHelper: the live profiling
message table, the two DOM insertion points and the advisory flags.  In the
pre-fetch state both insertion points are empty and both flags false. -/
structure PanelState where
  profiling : String → JVal
  helperTips : String
  adviceContent : String
  adviceOptimize : Bool
  adviceNotOptimize : Bool

/-- Folding the effects of a forEach run into the component state: the
helper-tips container ends at its last write (iterations write it each time
round), ms-advice-content at its last write if any, and the flags are only
ever raised. -/
def applyRun (st : PanelState) (r : RunEff × (String → JVal)) : PanelState :=
  { profiling := r.2,
    helperTips :=
      match r.1.writes.getLast? with
      | some w => w
      | none => st.helperTips,
    adviceContent :=
      match r.1.advice with
      | some a => a
      | none => st.adviceContent,
    adviceOptimize := st.adviceOptimize || r.1.setOpt,
    adviceNotOptimize := st.adviceNotOptimize || r.1.setNotOpt }

/-- getDataOfProfileHelper: the request either fails (the catch swallows the
error and nothing at all happens) or resolves to a response value res; the
guard if (res and res.data) skips falsy shapes, and a TypeError thrown
while processing is caught by the same catch, preserving every DOM write
already performed.  Object.keys on a non-object truthy data value is
modelled as yielding no keys. -/
def getDataOfProfileHelper (st : PanelState) (fetch : Except Unit JVal) : PanelState :=
  match fetch with
  | .error _ => st
  | .ok res =>
    if jsTruthy res then
      match jsGetProp res "data" with
      | .error _ => st
      | .ok d =>
        if jsTruthy d then
          match d with
          | .obj fields => applyRun st (runItems fields st.profiling [] (fields.map Prod.fst))
          | _ => st
        else st
    else st

/-! ## The collapsible advice toggle -/

/-- adviceToShow: toggles the adviceShow field between block and none. -/
def adviceToShow (adviceShow : String) : String :=
  if adviceShow = "block" then "none" else "block"

/-- adviceChange: the v-show signal of the advice container. -/
def adviceChange (adviceShow : String) : Bool :=
  if adviceShow = "block" then true else false

/-! ## SvgFrame (svg-wrapper.vue) -/

/-- Component data: width and height both start at 0.  The only lifecycle
hook is mounted, so no later re-measurement can occur. -/
structure SvgData where
  width : Int
  height : Int

def svgInitial : SvgData := ⟨0, 0⟩

/-- mounted: floor both bounding-box measurements (arbitrary rationals
standing for the layout floats) and store them. -/
def svgMounted (measuredW measuredH : ℚ) : SvgData :=
  ⟨⌊measuredW⌋, ⌊measuredH⌋⟩

/-- The rendered svg element when the v-if gate passes. -/
structure SvgElement where
  width : Int
  height : Int
  viewBox : String
deriving DecidableEq

/-- Template: the svg element exists only under width > 0 and height > 0,
and then publishes the stored dimensions. -/
def svgRender (d : SvgData) : Option SvgElement :=
  if 0 < d.width ∧ 0 < d.height then
    some ⟨d.width, d.height,
      "0 0 " ++ toString d.width ++ " " ++ toString d.height⟩
  else none

/-! ## Specification-side characterizations and concrete inputs

The definitions below are not translations of further source code: they are
closed forms used to state theorems (spec-side mirrors of the advisor
contents, and concrete localized tables and responses for evaluations). -/

/-- Plain concatenation of a list of strings, with definitional equations
on cons (String.join of the source, written recursively). -/
def concatStrs : List String → String
  | [] => ""
  | s :: rest => s ++ concatStrs rest

/-- Spec-side paragraph list of one detail block: exactly one paragraph per
item of the recommendation value list, holding the localized ordinal text. -/
def detailParas (a : JVal) : List JVal → Nat → List String
  | [], _ => []
  | _ :: rest, i => ("<p>" ++ jsToString (jsIndexD a i) ++ "</p>") :: detailParas a rest (i + 1)

/-- Spec-side advisory contents: one detail block per extend entry whose
extendtitle equals the fixed recommendation title, each block enumerating
the first value list of the entry. -/
def specAdvisorContents (a : JVal) (entries : List JVal) : List String :=
  entries.filterMap (fun e =>
    match e with
    | .obj fs =>
      if jvalIsStr (objGet fs "extendtitle") recommendTitle then
        match objGet fs "value" with
        | .list (.list vals :: _) =>
          some ("<span class=\"expert-advice\"><span class=\"advice-detail\">"
            ++ concatStrs (detailParas a vals 0) ++ "</span></span>")
        | _ => none
      else none
    | _ => none)

/-- Shape condition under which an extend entry is processed without a
throw: it is not undefined, and if it matches the recommendation title its
value field is a list headed by a list. -/
def entryOK (e : JVal) : Prop :=
  match e with
  | JVal.undef => False
  | .obj fs =>
    jvalIsStr (objGet fs "extendtitle") recommendTitle = true →
      ∃ vals rest, objGet fs "value" = .list (.list vals :: rest)
  | _ => True

/-- Control-flow skeleton of advisorEntry as a function of the entry alone:
none when the entry throws before reading adviceDetails, some none when it
contributes nothing, some (some vals) when it reaches the detail loop over
vals. -/
def entryShape (e : JVal) : Option (Option (List JVal)) :=
  match jsHasOwn e "extendtitle" with
  | .error _ => none
  | .ok false => some none
  | .ok true =>
    match jsGetProp e "extendtitle" with
    | .error _ => none
    | .ok t =>
      if jvalIsStr t recommendTitle then
        match jsGetProp e "value" with
        | .error _ => none
        | .ok vv =>
          match jsIndex vv 0 with
          | .error _ => none
          | .ok v0 =>
            match v0 with
            | .list vals => some (some vals)
            | _ => none
      else some none

/-- Whether the extend forEach throws before reading adviceDetails,
as a function of the entries alone. -/
def foldErrShape : List JVal → Bool
  | [] => false
  | e :: rest =>
    match entryShape e with
    | none => true
    | some _ => foldErrShape rest

/-- Pre-fetch component state: both insertion points empty, flags down. -/
def initialPanel (T : String → JVal) : PanelState := ⟨T, "", "", false, false⟩

/-- Localized table holding a two-anchor descriptor for the field doc_link
(concrete input for the multi-anchor branch). -/
def anch2Table : String → JVal := fun k =>
  if k = "doc_link" then
    .obj [("desc", .str "See [a1] and [a2]."),
          ("anchor", .list [.str "[a1]", .str "[a2]"]),
          ("url", .list [.str "https://u1", .str "https://u2"])]
  else JVal.undef

/-- Localized table holding a one-anchor descriptor for doc_link. -/
def anch1Table : String → JVal := fun k =>
  if k = "doc_link" then
    .obj [("desc", .str "Docs here."),
          ("anchor", .list [.str "[a1]"]),
          ("url", .list [.str "https://u1"])]
  else JVal.undef

/-- Modelled from the spec: the localized message catalog is repository
code outside the given sources; per the specification it supplies a
description template for device_queue_warning (emitted verbatim) and lists
anchors only where hyperlinks are configured, so the descriptor is an
object with a desc template and no anchor. -/
def cTwoTable : String → JVal := fun k =>
  if k = "device_queue_warning" then .obj [("desc", .str "Queue warning desc.")]
  else JVal.undef

/-- Localized table with a four-token description template for
minddata_device_queue. -/
def cThreeTable : String → JVal := fun k =>
  if k = "minddata_device_queue" then
    .obj [("desc", .str "E \x7bn1\x7d T \x7bn2\x7d D \x7bn3\x7d T2 \x7bn4\x7d")]
  else JVal.undef

/-- Localized table for the processing-failure scenario: the field multi
carries a two-anchor descriptor. -/
def cSixTable : String → JVal := fun k =>
  if k = "multi" then
    .obj [("desc", .str "See [a1] and [a2]."),
          ("anchor", .list [.str "[a1]", .str "[a2]"]),
          ("url", .list [.str "https://u1", .str "https://u2"])]
  else JVal.undef

/-- Two-field response whose second field hits the relpace TypeError. -/
def cSixFields : List (String × JVal) := [("x_type_label", .num 1), ("multi", .num 0)]

/-- Two-field response of title fields (both successfully processed). -/
def cFiveFields : List (String × JVal) := [("x_type_label", .num 1), ("y_type_label", .num 2)]

/-- All-undefined localized table. -/
def undefTable : String → JVal := fun _ => JVal.undef

/-- Concrete advisor response fields: one AICPUModel entry whose extend list
holds a single matching recommendation with a two-item value list. -/
def cFourEntries : List JVal :=
  [.obj [("extendtitle", .str recommendTitle),
         ("value", .list [.list [.str "op1", .str "op2"]])]]

/-- AICPUModel object carrying the extend list above. -/
def cFourAfs : List (String × JVal) := [("extend", .list cFourEntries)]

/-- msadvisor-proposer response value wrapping the AICPUModel entry. -/
def cFourVfs : List (String × JVal) := [("AICPUModel", .obj cFourAfs)]

/-- Concrete localized ordinal list for adviceDetails. -/
def cFourDetails : JVal := .list [.str "first", .str "second", .str "third"]

/-! ## General lemmas about the embedding -/

theorem jsTruthy_ne_undef {v : JVal} (h : jsTruthy v = true) : v ≠ JVal.undef := by
  intro he; subst he; simp [jsTruthy] at h

theorem jsIndex_ok {a : JVal} (ha : a ≠ JVal.undef) (i : Nat) :
    jsIndex a i = .ok (jsIndexD a i) := by
  cases a <;> first | rfl | exact absurd rfl ha

theorem detailLoop_ok {a : JVal} (ha : a ≠ JVal.undef) (vals : List JVal) :
    ∀ i, detailLoop a vals i = .ok (concatStrs (detailParas a vals i)) := by
  induction vals with
  | nil => intro i; rfl
  | cons x rest ih =>
    intro i
    simp only [detailLoop, jsIndex_ok ha, detailParas, concatStrs, ih (i + 1)]

theorem advisorEntry_shape {a : JVal} (ha : a ≠ JVal.undef) (e : JVal) :
    advisorEntry a e =
      match entryShape e with
      | none => .error .typeError
      | some none => .ok none
      | some (some vals) =>
        .ok (some ("<span class=\"expert-advice\"><span class=\"advice-detail\">"
          ++ concatStrs (detailParas a vals 0) ++ "</span></span>")) := by
  cases e with
  | obj fs =>
    unfold advisorEntry entryShape
    simp only [jsHasOwn, jsGetProp, objGet]
    cases h : fs.lookup "extendtitle" with
    | none => simp
    | some t =>
      simp only [Option.isSome_some]
      split_ifs with hm
      · cases hv : fs.lookup "value" with
        | none => simp [jsIndex]
        | some vv =>
          cases vv with
          | undef => simp [jsIndex]
          | list ws =>
            cases ws with
            | nil => simp [jsIndex]
            | cons w ws' =>
              cases w <;> simp [jsIndex, detailLoop_ok ha]
          | str s =>
            simp only [jsIndex, String.toList]
            cases hs : s.data[0]? <;> simp [hs]
          | obj gs =>
            cases hg : gs.lookup "0" with
            | none => simp [jsIndex, objGet, hg]
            | some g => cases g <;> simp [jsIndex, objGet, hg, detailLoop_ok ha]
          | nan => simp [jsIndex]
          | bool b => simp [jsIndex]
          | num n => simp [jsIndex]
      · rfl
  | undef => rfl
  | nan => rfl
  | bool b => rfl
  | num n => rfl
  | str s => rfl
  | list xs => rfl

theorem advisorEntry_undef (e : JVal) :
    advisorEntry JVal.undef e =
      match entryShape e with
      | none => .error .typeError
      | some none => .ok none
      | some (some []) =>
        .ok (some ("<span class=\"expert-advice\"><span class=\"advice-detail\"></span></span>"))
      | some (some (_ :: _)) => .error .typeError := by
  cases e with
  | obj fs =>
    unfold advisorEntry entryShape
    simp only [jsHasOwn, jsGetProp, objGet]
    cases h : fs.lookup "extendtitle" with
    | none => simp
    | some t =>
      simp only [Option.isSome_some]
      split_ifs with hm
      · cases hv : fs.lookup "value" with
        | none => simp [jsIndex]
        | some vv =>
          cases vv with
          | undef => simp [jsIndex]
          | list ws =>
            cases ws with
            | nil => simp [jsIndex]
            | cons w ws' =>
              cases w with
              | list vals => cases vals <;> simp [jsIndex, detailLoop]
              | undef => simp [jsIndex]
              | nan => simp [jsIndex]
              | bool b => simp [jsIndex]
              | num n => simp [jsIndex]
              | str s => simp [jsIndex]
              | obj gs => simp [jsIndex]
          | str s =>
            simp only [jsIndex, String.toList]
            cases hs : s.data[0]? <;> simp [hs]
          | obj gs =>
            cases hg : gs.lookup "0" with
            | none => simp [jsIndex, objGet, hg]
            | some g =>
              cases g with
              | list vals => cases vals <;> simp [jsIndex, objGet, hg, detailLoop]
              | undef => simp [jsIndex, objGet, hg]
              | nan => simp [jsIndex, objGet, hg]
              | bool b => simp [jsIndex, objGet, hg]
              | num n => simp [jsIndex, objGet, hg]
              | str s => simp [jsIndex, objGet, hg]
              | obj hs2 => simp [jsIndex, objGet, hg]
          | nan => simp [jsIndex]
          | bool b => simp [jsIndex]
          | num n => simp [jsIndex]
      · rfl
  | undef => rfl
  | nan => rfl
  | bool b => rfl
  | num n => rfl
  | str s => rfl
  | list xs => rfl

theorem advisorFold_err_shape {a : JVal} (ha : a ≠ JVal.undef) (entries : List JVal) :
    (advisorFold a entries).2 = foldErrShape entries := by
  induction entries with
  | nil => rfl
  | cons e rest ih =>
    simp only [advisorFold, foldErrShape, advisorEntry_shape ha]
    cases entryShape e with
    | none => rfl
    | some o => cases o <;> simp [ih]

theorem advisorFold_undef_dom (entries : List JVal)
    (h : foldErrShape entries = true) : (advisorFold JVal.undef entries).2 = true := by
  induction entries with
  | nil => simp [foldErrShape] at h
  | cons e rest ih =>
    simp only [advisorFold, advisorEntry_undef]
    simp only [foldErrShape] at h
    cases hs : entryShape e with
    | none => simp [hs]
    | some o =>
      rw [hs] at h
      cases o with
      | none => simp [ih h]
      | some vals => cases vals <;> simp [ih h]

theorem getAdvisorProposer_flags (a a' v : JVal) :
    (getAdvisorProposer a v).setOpt = (getAdvisorProposer a' v).setOpt ∧
    (getAdvisorProposer a v).setNotOpt = (getAdvisorProposer a' v).setNotOpt := by
  unfold getAdvisorProposer
  cases h1 : jsGetProp v "AICPUModel" with
  | error e => simp [h1]
  | ok aicpu =>
    cases h2 : jsHasOwn aicpu "extend" with
    | error e => simp [h1, h2]
    | ok b =>
      cases b with
      | false => simp [h1, h2]
      | true =>
        cases h3 : jsGetProp aicpu "extend" with
        | error e => simp [h1, h2, h3]
        | ok ext => cases ext <;> simp [h1, h2, h3]

theorem getAdvisorProposer_err_congr {a a' : JVal} (ha : a ≠ JVal.undef) (ha' : a' ≠ JVal.undef)
    (v : JVal) : (getAdvisorProposer a v).err = (getAdvisorProposer a' v).err := by
  unfold getAdvisorProposer
  cases h1 : jsGetProp v "AICPUModel" with
  | error e => simp [h1]
  | ok aicpu =>
    cases h2 : jsHasOwn aicpu "extend" with
    | error e => simp [h1, h2]
    | ok b =>
      cases b with
      | false => simp [h1, h2]
      | true =>
        cases h3 : jsGetProp aicpu "extend" with
        | error e => simp [h1, h2, h3]
        | ok ext =>
          cases ext <;> simp [h1, h2, h3,
            advisorFold_err_shape ha, advisorFold_err_shape ha']

theorem getAdvisorProposer_err_dom {a v : JVal}
    (h : (getAdvisorProposer a v).err = true) :
    (getAdvisorProposer JVal.undef v).err = true := by
  by_cases ha : a = JVal.undef
  · subst ha; exact h
  · unfold getAdvisorProposer at h ⊢
    cases h1 : jsGetProp v "AICPUModel" with
    | error e => simp [h1]
    | ok aicpu =>
      cases h2 : jsHasOwn aicpu "extend" with
      | error e => simp [h1, h2]
      | ok b =>
        cases b with
        | false => simp [h1, h2] at h
        | true =>
          cases h3 : jsGetProp aicpu "extend" with
          | error e => simp [h1, h2, h3]
          | ok ext =>
            cases ext with
            | list entries =>
              simp only [h1, h2, h3] at h ⊢
              rw [advisorFold_err_shape ha] at h
              exact advisorFold_undef_dom entries h
            | undef => simp [h1, h2, h3]
            | nan => simp [h1, h2, h3]
            | bool b2 => simp [h1, h2, h3]
            | num n => simp [h1, h2, h3]
            | str s => simp [h1, h2, h3]
            | obj fs => simp [h1, h2, h3]

theorem stepEffect_proposer (own a v : JVal) :
    stepEffect own a "msadvisor-proposer" v = advisorEff a v := by
  unfold stepEffect
  rw [if_neg (by decide), if_neg (by decide), if_neg (by decide), if_neg (by decide),
      if_pos (by decide), if_pos rfl]

theorem stepEffect_a_irrel (own a a' : JVal) (k : String) (v : JVal)
    (h : k ≠ "msadvisor-proposer") :
    stepEffect own a k v = stepEffect own a' k v := by
  unfold stepEffect
  split_ifs <;> first | rfl | (exact absurd (by assumption) h)

theorem advisorEff_frag (a v : JVal) : (advisorEff a v).frag = none := by
  simp only [advisorEff]
  split <;> rfl

theorem stepEffect_core_align (own a a' : JVal) (k : String) (v : JVal)
    (himp : a' = JVal.undef → a = JVal.undef)
    (herr : (stepEffect own a k v).err = false) :
    (stepEffect own a' k v).frag = (stepEffect own a k v).frag ∧
    (stepEffect own a' k v).setOpt = (stepEffect own a k v).setOpt ∧
    (stepEffect own a' k v).setNotOpt = (stepEffect own a k v).setNotOpt ∧
    (stepEffect own a' k v).err = false := by
  by_cases hk : k = "msadvisor-proposer"
  case neg =>
    rw [stepEffect_a_irrel own a' a k v hk]
    exact ⟨rfl, rfl, rfl, herr⟩
  case pos =>
    subst hk
    rw [stepEffect_proposer] at herr ⊢
    rw [stepEffect_proposer]
    have hflags := getAdvisorProposer_flags a' a v
    have herr2 : (getAdvisorProposer a v).err = false := by
      by_cases hge : (getAdvisorProposer a v).err = true
      · simp [advisorEff, hge] at herr
      · simpa using hge
    have herr2x : (getAdvisorProposer a' v).err = false := by
      by_cases ha' : a' = JVal.undef
      · have ha : a = JVal.undef := himp ha'
        rw [ha']
        rw [ha] at herr2
        exact herr2
      · by_cases ha : a = JVal.undef
        · by_contra hne
          have hT : (getAdvisorProposer a' v).err = true := by
            cases hh : (getAdvisorProposer a' v).err
            · exact absurd hh hne
            · rfl
          have hU := getAdvisorProposer_err_dom hT
          rw [← ha] at hU
          rw [hU] at herr2
          exact Bool.noConfusion herr2
        · rw [getAdvisorProposer_err_congr ha' ha v]
          exact herr2
    refine ⟨?_, ?_, ?_, ?_⟩ <;>
      simp [advisorEff, herr2, herr2x, hflags.1, hflags.2]

theorem stepTable_own {k : String} {v : JVal} (hc : condMut k v = true) (T : String → JVal) :
    stepTable T k v k = v := by
  simp [stepTable, hc]

theorem stepTable_self {T : String → JVal} {k : String} {v : JVal}
    (h : condMut k v = true → T k = v) : stepTable T k v = T := by
  unfold stepTable
  by_cases hc : condMut k v = true
  · rw [if_pos hc]
    funext q
    by_cases hq : q = k
    · rw [if_pos hq, hq, h hc]
    · rw [if_neg hq]
  · rw [if_neg hc]

theorem stepTable_idem (T : String → JVal) (k : String) (v : JVal) :
    stepTable (stepTable T k v) k v = stepTable T k v :=
  stepTable_self (fun hc => stepTable_own hc T)

theorem runItems_cons (res : List (String × JVal)) (T : String → JVal) (acc : List String)
    (k : String) (rest : List String) :
    runItems res T acc (k :: rest) =
      if (runStepEff res T k).err then
        (mkErrEff (runStepEff res T k), stepTable T k (objGet res k))
      else
        (mkConsEff (runStepEff res T k) acc
           (runItems res (stepTable T k (objGet res k))
              (acc ++ (runStepEff res T k).frag.toList) rest).1,
         (runItems res (stepTable T k (objGet res k))
            (acc ++ (runStepEff res T k).frag.toList) rest).2) := rfl

theorem runItems_preserve (res : List (String × JVal)) (k0 : String) (keys : List String) :
    ∀ (T : String → JVal) (acc : List String), T k0 = objGet res k0 →
      (runItems res T acc keys).2 k0 = objGet res k0 := by
  induction keys with
  | nil => intro T acc h; exact h
  | cons k rest ih =>
    intro T acc h
    have h' : (stepTable T k (objGet res k)) k0 = objGet res k0 := by
      unfold stepTable
      by_cases hc : condMut k (objGet res k) = true
      · rw [if_pos hc]
        by_cases hq : k0 = k
        · rw [if_pos hq, hq]
        · rw [if_neg hq]; exact h
      · rw [if_neg hc]; exact h
    rw [runItems_cons]
    split
    · exact h'
    · exact ih _ _ h'

theorem runItems_nomut (res : List (String × JVal)) (k0 : String)
    (hc0 : condMut k0 (objGet res k0) = false) (keys : List String) :
    ∀ (T : String → JVal) (acc : List String), (runItems res T acc keys).2 k0 = T k0 := by
  induction keys with
  | nil => intro T acc; rfl
  | cons k rest ih =>
    intro T acc
    have h' : (stepTable T k (objGet res k)) k0 = T k0 := by
      unfold stepTable
      by_cases hc : condMut k (objGet res k) = true
      · rw [if_pos hc]
        by_cases hq : k0 = k
        · exfalso
          rw [hq] at hc0
          rw [hc] at hc0
          exact Bool.noConfusion hc0
        · rw [if_neg hq]
      · rw [if_neg hc]
    rw [runItems_cons]
    split
    · exact h'
    · rw [ih _ _]; exact h'

theorem condMut_truthy {k : String} {v : JVal} (hc : condMut k v = true) :
    jsTruthy v = true := by
  unfold condMut at hc
  simp only [Bool.and_eq_true] at hc
  exact hc.2

theorem runItems_keep_or_truthy (res : List (String × JVal)) (x : String) (keys : List String) :
    ∀ (T : String → JVal) (acc : List String),
      (runItems res T acc keys).2 x = T x ∨
      jsTruthy ((runItems res T acc keys).2 x) = true := by
  induction keys with
  | nil => intro T acc; exact Or.inl rfl
  | cons k rest ih =>
    intro T acc
    have hstep : (stepTable T k (objGet res k)) x = T x ∨
        jsTruthy ((stepTable T k (objGet res k)) x) = true := by
      unfold stepTable
      by_cases hc : condMut k (objGet res k) = true
      · rw [if_pos hc]
        by_cases hq : x = k
        · right
          rw [if_pos hq]
          exact condMut_truthy hc
        · left; rw [if_neg hq]
      · left; rw [if_neg hc]
    rw [runItems_cons]
    split
    · exact hstep
    · rcases ih (stepTable T k (objGet res k)) (acc ++ (runStepEff res T k).frag.toList) with h | h
      · rw [h]; exact hstep
      · right; exact h

theorem runStepEff_eq (res : List (String × JVal)) (T : String → JVal) (k : String) :
    runStepEff res T k
      = stepEffect (stepTable T k (objGet res k) k)
          (stepTable T k (objGet res k) "adviceDetails") k (objGet res k) := rfl

theorem runItems_idem (res : List (String × JVal)) (keys : List String) :
    ∀ (T : String → JVal) (acc : List String),
      (runItems res ((runItems res T acc keys).2) acc keys).1.frags
          = (runItems res T acc keys).1.frags ∧
      (runItems res ((runItems res T acc keys).2) acc keys).1.writes
          = (runItems res T acc keys).1.writes ∧
      (runItems res ((runItems res T acc keys).2) acc keys).1.err
          = (runItems res T acc keys).1.err ∧
      (runItems res ((runItems res T acc keys).2) acc keys).1.setOpt
          = (runItems res T acc keys).1.setOpt ∧
      (runItems res ((runItems res T acc keys).2) acc keys).1.setNotOpt
          = (runItems res T acc keys).1.setNotOpt ∧
      (runItems res ((runItems res T acc keys).2) acc keys).2
          = (runItems res T acc keys).2 := by
  induction keys with
  | nil => intro T acc; exact ⟨rfl, rfl, rfl, rfl, rfl, rfl⟩
  | cons k rest ih =>
    intro T acc
    by_cases he : (runStepEff res T k).err = true
    · have h1 : runItems res T acc (k :: rest)
          = (mkErrEff (runStepEff res T k), stepTable T k (objGet res k)) := by
        rw [runItems_cons, if_pos he]
      have h1s : (runItems res T acc (k :: rest)).2 = stepTable T k (objGet res k) := by
        rw [h1]
      have hT := stepTable_idem T k (objGet res k)
      have he2 : runStepEff res (stepTable T k (objGet res k)) k = runStepEff res T k := by
        unfold runStepEff
        rw [hT]
      have h2 : runItems res (stepTable T k (objGet res k)) acc (k :: rest)
          = (mkErrEff (runStepEff res T k), stepTable T k (objGet res k)) := by
        rw [runItems_cons, he2, if_pos he, hT]
      rw [h1s, h2, h1]
      exact ⟨rfl, rfl, rfl, rfl, rfl, rfl⟩
    · have heF : (runStepEff res T k).err = false := by
        simpa using he
      have h1 : runItems res T acc (k :: rest)
          = (mkConsEff (runStepEff res T k) acc
               (runItems res (stepTable T k (objGet res k))
                  (acc ++ (runStepEff res T k).frag.toList) rest).1,
             (runItems res (stepTable T k (objGet res k))
                (acc ++ (runStepEff res T k).frag.toList) rest).2) := by
        rw [runItems_cons, if_neg (by simp [heF])]
      have h1s : (runItems res T acc (k :: rest)).2
          = (runItems res (stepTable T k (objGet res k))
               (acc ++ (runStepEff res T k).frag.toList) rest).2 := by
        rw [h1]
      -- own-key stability of the table across the rest of run one
      have hTfk : (runItems res (stepTable T k (objGet res k))
            (acc ++ (runStepEff res T k).frag.toList) rest).2 k
          = stepTable T k (objGet res k) k := by
        by_cases hc : condMut k (objGet res k) = true
        · have hT1k : stepTable T k (objGet res k) k = objGet res k := stepTable_own hc T
          rw [runItems_preserve res k rest _ _ hT1k, hT1k]
        · exact runItems_nomut res k (by simpa using hc) rest _ _
      -- re-mutating the final table of run one is the identity
      have habs : stepTable ((runItems res (stepTable T k (objGet res k))
              (acc ++ (runStepEff res T k).frag.toList) rest).2) k (objGet res k)
          = (runItems res (stepTable T k (objGet res k))
              (acc ++ (runStepEff res T k).frag.toList) rest).2 := by
        apply stepTable_self
        intro hc
        rw [hTfk]
        exact stepTable_own hc T
      -- the adviceDetails entry either kept its value or became truthy
      have himp : (runItems res (stepTable T k (objGet res k))
              (acc ++ (runStepEff res T k).frag.toList) rest).2 "adviceDetails" = JVal.undef →
          stepTable T k (objGet res k) "adviceDetails" = JVal.undef := by
        intro hz
        rcases runItems_keep_or_truthy res "adviceDetails" rest
            (stepTable T k (objGet res k)) (acc ++ (runStepEff res T k).frag.toList) with h | h
        · rw [← h]; exact hz
        · rw [hz] at h
          simp [jsTruthy] at h
      have heF' : (stepEffect (stepTable T k (objGet res k) k)
          (stepTable T k (objGet res k) "adviceDetails") k (objGet res k)).err = false := heF
      have hcore := stepEffect_core_align (stepTable T k (objGet res k) k)
        (stepTable T k (objGet res k) "adviceDetails")
        ((runItems res (stepTable T k (objGet res k))
            (acc ++ (runStepEff res T k).frag.toList) rest).2 "adviceDetails")
        k (objGet res k) himp heF'
      rw [← runStepEff_eq res T k] at hcore
      have he2 : runStepEff res ((runItems res (stepTable T k (objGet res k))
            (acc ++ (runStepEff res T k).frag.toList) rest).2) k
          = stepEffect (stepTable T k (objGet res k) k)
              ((runItems res (stepTable T k (objGet res k))
                  (acc ++ (runStepEff res T k).frag.toList) rest).2 "adviceDetails")
              k (objGet res k) := by
        rw [runStepEff_eq res ((runItems res (stepTable T k (objGet res k))
              (acc ++ (runStepEff res T k).frag.toList) rest).2) k, habs, hTfk]
      have h2 : runItems res ((runItems res (stepTable T k (objGet res k))
            (acc ++ (runStepEff res T k).frag.toList) rest).2) acc (k :: rest)
          = (mkConsEff (stepEffect (stepTable T k (objGet res k) k)
               ((runItems res (stepTable T k (objGet res k))
                   (acc ++ (runStepEff res T k).frag.toList) rest).2 "adviceDetails")
               k (objGet res k)) acc
               (runItems res ((runItems res (stepTable T k (objGet res k))
                   (acc ++ (runStepEff res T k).frag.toList) rest).2)
                  (acc ++ (runStepEff res T k).frag.toList) rest).1,
             (runItems res ((runItems res (stepTable T k (objGet res k))
                  (acc ++ (runStepEff res T k).frag.toList) rest).2)
                (acc ++ (runStepEff res T k).frag.toList) rest).2) := by
        rw [runItems_cons, he2, if_neg (by simp [hcore.2.2.2]), habs, hcore.1]
      have hIH := ih (stepTable T k (objGet res k)) (acc ++ (runStepEff res T k).frag.toList)
      rw [h1s, h2, h1]
      refine ⟨?_, ?_, ?_, ?_, ?_, ?_⟩
      · simp only [mkConsEff]
        rw [hcore.1, hIH.1]
      · simp only [mkConsEff]
        rw [hcore.1, hIH.2.1]
      · simp only [mkConsEff]
        rw [hIH.2.2.1]
      · simp only [mkConsEff]
        rw [hcore.2.1, hIH.2.2.2.1]
      · simp only [mkConsEff]
        rw [hcore.2.2.1, hIH.2.2.2.2.1]
      · exact hIH.2.2.2.2.2

/-! ## Characterizations used by the claim theorems -/

theorem detailParas_length (a : JVal) : ∀ (vals : List JVal) (i : Nat),
    (detailParas a vals i).length = vals.length := by
  intro vals
  induction vals with
  | nil => intro i; rfl
  | cons x rest ih => intro i; simp [detailParas, ih]

theorem advisorFold_spec {a : JVal} (ha : a ≠ JVal.undef) : ∀ (entries : List JVal),
    (∀ e ∈ entries, entryOK e) →
    advisorFold a entries = (specAdvisorContents a entries, false) := by
  intro entries
  induction entries with
  | nil => intro _; rfl
  | cons e rest ih =>
    intro hok
    have hOKe : entryOK e := hok e (List.mem_cons_self e rest)
    have hrest := ih (fun x hx => hok x (List.mem_cons_of_mem e hx))
    cases e with
    | undef => exact absurd hOKe (by simp [entryOK])
    | obj fs =>
      cases h : fs.lookup "extendtitle" with
      | none =>
        have hObj : objGet fs "extendtitle" = JVal.undef := by unfold objGet; rw [h]
        simp [advisorFold, advisorEntry, specAdvisorContents, jsHasOwn, jsGetProp, h, hObj,
              jvalIsStr, hrest, List.filterMap_cons]
      | some t =>
        have hObj : objGet fs "extendtitle" = t := by unfold objGet; rw [h]
        by_cases hm : jvalIsStr t recommendTitle = true
        · obtain ⟨vals, rest2, hval⟩ := hOKe (by rw [hObj]; exact hm)
          simp [advisorFold, advisorEntry, specAdvisorContents, jsHasOwn, jsGetProp, h, hObj, hm,
                hval, jsIndex, detailLoop_ok ha, hrest, List.filterMap_cons]
        · simp [advisorFold, advisorEntry, specAdvisorContents, jsHasOwn, jsGetProp, h, hObj, hm,
                hrest, List.filterMap_cons]
    | nan =>
      simp [advisorFold, advisorEntry, specAdvisorContents, jsHasOwn, hrest, List.filterMap_cons]
    | bool b =>
      simp [advisorFold, advisorEntry, specAdvisorContents, jsHasOwn, hrest, List.filterMap_cons]
    | num n =>
      simp [advisorFold, advisorEntry, specAdvisorContents, jsHasOwn, hrest, List.filterMap_cons]
    | str s =>
      simp [advisorFold, advisorEntry, specAdvisorContents, jsHasOwn, hrest, List.filterMap_cons]
    | list xs =>
      simp [advisorFold, advisorEntry, specAdvisorContents, jsHasOwn, hrest, List.filterMap_cons]

theorem queueEff_pair (fs : List (String × JVal)) (d : String) (s e : Int)
    (hd : objGet fs "desc" = .str d) :
    queueEff (.obj fs) (.list [.num s, .num e])
      = fragEff (contentFrag
          (replaceFirst (replaceFirst (replaceFirst (replaceFirst d
              "\x7bn1\x7d" (nowrapSpan (if 0 ≤ s then toString s else "--")))
              "\x7bn2\x7d" (nowrapSpan (if 0 ≤ e then toString e else "--")))
              "\x7bn3\x7d" (nowrapSpan (if 0 ≤ s ∧ 0 ≤ e then toString (e - s) else "NaN")))
              "\x7bn4\x7d" (nowrapSpan (if 0 ≤ e then toString e else "--")))) := by
  have hdash : toNumberOpt (JVal.str "--") = none := rfl
  have hnum : ∀ x : Int, toNumberOpt (.num x) = some x := fun _ => rfl
  unfold queueEff
  simp only [jsDestr2, List.getD_cons_zero, List.getD_cons_succ, jsGetProp, hd]
  by_cases hs : 0 ≤ s <;> by_cases he0 : 0 ≤ e <;>
    simp [jsGE0, jsSub, jsToString, jsToStringAtom, hnum, hdash, hs, he0]

theorem runItems_writes (res : List (String × JVal)) (keys : List String) :
    ∀ (T : String → JVal) (acc : List String),
      (runItems res T acc keys).1.err = false →
      (runItems res T acc keys).1.writes.length = keys.length ∧
      (keys = [] ∨ (runItems res T acc keys).1.writes.getLast?
         = some (String.join (acc ++ (runItems res T acc keys).1.frags))) := by
  induction keys with
  | nil => intro T acc _; exact ⟨rfl, Or.inl rfl⟩
  | cons k rest ih =>
    intro T acc herr
    by_cases he : (runStepEff res T k).err = true
    · rw [runItems_cons, if_pos he] at herr
      simp [mkErrEff] at herr
    · have h1 : runItems res T acc (k :: rest)
          = (mkConsEff (runStepEff res T k) acc
               (runItems res (stepTable T k (objGet res k))
                  (acc ++ (runStepEff res T k).frag.toList) rest).1,
             (runItems res (stepTable T k (objGet res k))
                (acc ++ (runStepEff res T k).frag.toList) rest).2) := by
        rw [runItems_cons, if_neg he]
      rw [h1] at herr ⊢
      simp only [mkConsEff] at herr ⊢
      have hr := ih (stepTable T k (objGet res k))
        (acc ++ (runStepEff res T k).frag.toList) herr
      refine ⟨by simp [hr.1], Or.inr ?_⟩
      rcases hr.2 with hnil | hlast
      · subst hnil
        simp [runItems, emptyEff]
      · have hne : (runItems res (stepTable T k (objGet res k))
            (acc ++ (runStepEff res T k).frag.toList) rest).1.writes ≠ [] := by
          intro hz
          rw [hz] at hlast
          simp at hlast
        cases hw : (runItems res (stepTable T k (objGet res k))
            (acc ++ (runStepEff res T k).frag.toList) rest).1.writes with
        | nil => exact absurd hw hne
        | cons w ws =>
          rw [hw] at hlast
          rw [List.getLast?_cons_cons]
          rw [hlast]
          simp [List.append_assoc]

/-! ## Claim theorems -/

/-- C1: the single-anchor case does wrap the whole description in a
hyperlink to the first configured url, but the multi-anchor case never
yields a fragment: the loop body invokes the nonexistent string method
relpace (a misspelling of replace), so the first iteration throws a
TypeError, the iteration pushes nothing and the whole forEach aborts.
Evaluated here on a two-anchor descriptor (error, no fragment) and on a
one-anchor descriptor (wrapped fragment). -/
theorem C1_relpace_typo_aborts :
    (runItems [("doc_link", .num 0)] anch2Table [] ["doc_link"]).1.err = true ∧
    (runItems [("doc_link", .num 0)] anch2Table [] ["doc_link"]).1.frags = [] ∧
    (runItems [("doc_link", .num 0)] anch1Table [] ["doc_link"]).1.frags
      = [anchorFrag "https://u1" "Docs here."] :=
  ⟨rfl, rfl, rfl⟩

/-- C2 counterexample: for a response holding only device_queue_warning
with the empty list, and the localized descriptor shape the specification
describes for that field (a desc template, no anchor), the fragment list is
not empty: dispatch falls through the empty-list guard into the final else
branch and emits the plain desc fragment. -/
theorem C2_counterexample :
    (runItems [("device_queue_warning", .list [])] cTwoTable []
        ["device_queue_warning"]).1.frags ≠ [] ∧
    (runItems [("device_queue_warning", .list [])] cTwoTable []
        ["device_queue_warning"]).1.frags = [plainFrag "Queue warning desc."] :=
  ⟨by decide, rfl⟩

/-- C2 amended: the empty-list guard only skips the warning branch; for any
localized table whose device_queue_warning descriptor is an object without
a truthy anchor, the dispatch of the one-field response emits exactly the
plain desc fragment of the descriptor (and no error occurs). -/
theorem C2_amended_fallthrough (T : String → JVal) (fs : List (String × JVal))
    (h1 : T "device_queue_warning" = .obj fs)
    (h2 : jsTruthy (objGet fs "anchor") = false) :
    (runItems [("device_queue_warning", .list [])] T [] ["device_queue_warning"]).1.frags
      = [plainFrag (jsToString (objGet fs "desc"))] ∧
    (runItems [("device_queue_warning", .list [])] T [] ["device_queue_warning"]).1.err
      = false := by
  have hT : stepTable T "device_queue_warning"
      (objGet [("device_queue_warning", JVal.list [])] "device_queue_warning") = T := rfl
  have hstep : runStepEff [("device_queue_warning", JVal.list [])] T "device_queue_warning"
      = fragEff (plainFrag (jsToString (objGet fs "desc"))) := by
    rw [runStepEff_eq, hT]
    show stepEffect (T "device_queue_warning") (T "adviceDetails") "device_queue_warning"
        (JVal.list []) = _
    rw [h1]
    unfold stepEffect
    rw [if_neg (by decide), if_neg (by decide), if_neg (by decide), if_pos rfl]
    show (match jsGetProp (JVal.list []) "length" with
      | .error _ => errEff
      | .ok len =>
        if jsTruthy len = true then
          match jsGetProp (JVal.obj fs) "desc" with
          | .error _ => errEff
          | .ok d => fragEff (contentFrag (jsToString d))
        else anchorOrDefault (JVal.obj fs)) = _
    simp only [jsGetProp]
    show (if jsTruthy (JVal.num 0) = true then _ else anchorOrDefault (JVal.obj fs)) = _
    rw [if_neg (by decide)]
    unfold anchorOrDefault
    simp only [jsGetProp]
    rw [if_neg (by simp [h2])]
  rw [runItems_cons, hstep]
  rw [if_neg (by simp [fragEff])]
  constructor
  · simp [mkConsEff, fragEff, runItems, emptyEff]
  · simp [mkConsEff, fragEff, runItems, emptyEff]

/-- C2 witness: the amended theorem applied to the concrete spec-shaped
descriptor table. -/
theorem C2_witness :
    cTwoTable "device_queue_warning" = .obj [("desc", .str "Queue warning desc.")] ∧
    jsTruthy (objGet [("desc", JVal.str "Queue warning desc.")] "anchor") = false ∧
    (runItems [("device_queue_warning", .list [])] cTwoTable []
        ["device_queue_warning"]).1.frags
      = [plainFrag (jsToString (objGet [("desc", JVal.str "Queue warning desc.")] "desc"))] :=
  ⟨rfl, rfl, (C2_amended_fallthrough cTwoTable [("desc", .str "Queue warning desc.")] rfl rfl).1⟩

set_option maxRecDepth 8000 in
/-- C3 counterexample: for minddata_device_queue with value [-1, 100] and a
four-token template, the emitted fragment renders the start as the dash,
but the delta token is filled with NaN: the code computes the JS
subtraction 100 minus the dash string, whose numeric coercion fails, so the
delta is not substituted textually from the dash. -/
theorem C3_counterexample :
    (runItems [("minddata_device_queue", .list [.num (-1), .num 100])] cThreeTable []
        ["minddata_device_queue"]).1.frags
      = [contentFrag ("E " ++ nowrapSpan "--" ++ " T " ++ nowrapSpan "100" ++ " D "
          ++ nowrapSpan "NaN" ++ " T2 " ++ nowrapSpan "100")] ∧
    jsToString (jsSub (.num 100) (.str "--")) = "NaN" ∧
    nowrapSpan "NaN" ≠ nowrapSpan "--" :=
  ⟨rfl, rfl, by decide⟩

/-- C3 amended: for both queue fields the four placeholder substitutions
are start-or-dash, end-or-dash, the JS subtraction of the two substituted
values (end minus start when both are non-negative, NaN whenever either
side is the dash), and end-or-dash again, each inside a no-wrap span. -/
theorem C3_amended_queue_pair (own a : JVal) (fs : List (String × JVal)) (d : String)
    (s e : Int) (hown : own = .obj fs) (hd : objGet fs "desc" = .str d)
    (k : String) (hk : k = "minddata_device_queue" ∨ k = "minddata_get_next_queue") :
    stepEffect own a k (.list [.num s, .num e])
      = fragEff (contentFrag
          (replaceFirst (replaceFirst (replaceFirst (replaceFirst d
              "\x7bn1\x7d" (nowrapSpan (if 0 ≤ s then toString s else "--")))
              "\x7bn2\x7d" (nowrapSpan (if 0 ≤ e then toString e else "--")))
              "\x7bn3\x7d" (nowrapSpan (if 0 ≤ s ∧ 0 ≤ e then toString (e - s) else "NaN")))
              "\x7bn4\x7d" (nowrapSpan (if 0 ≤ e then toString e else "--")))) := by
  subst hown
  rcases hk with hk | hk <;> subst hk <;>
    (unfold stepEffect
     rw [if_neg (by decide), if_neg (by decide), if_pos (by decide)]
     exact queueEff_pair fs d s e hd)

/-- C3 witness: the amended theorem applied at [-1, 100] for the
minddata_device_queue field. -/
theorem C3_witness :
    objGet [("desc", JVal.str "D:\x7bn3\x7d")] "desc" = .str "D:\x7bn3\x7d" ∧
    stepEffect (.obj [("desc", .str "D:\x7bn3\x7d")]) JVal.undef "minddata_device_queue"
        (.list [.num (-1), .num 100])
      = fragEff (contentFrag
          (replaceFirst (replaceFirst (replaceFirst (replaceFirst "D:\x7bn3\x7d"
              "\x7bn1\x7d" (nowrapSpan (if 0 ≤ (-1 : Int) then toString (-1 : Int) else "--")))
              "\x7bn2\x7d" (nowrapSpan (if 0 ≤ (100 : Int) then toString (100 : Int) else "--")))
              "\x7bn3\x7d" (nowrapSpan (if 0 ≤ (-1 : Int) ∧ 0 ≤ (100 : Int)
                  then toString ((100 : Int) - (-1 : Int)) else "NaN")))
              "\x7bn4\x7d" (nowrapSpan (if 0 ≤ (100 : Int) then toString (100 : Int) else "--")))) :=
  ⟨rfl, C3_amended_queue_pair (.obj [("desc", .str "D:\x7bn3\x7d")]) JVal.undef
    [("desc", .str "D:\x7bn3\x7d")] "D:\x7bn3\x7d" (-1) 100 rfl rfl
    "minddata_device_queue" (Or.inl rfl)⟩

/-- C4: with the AICPUModel entry present, a missing extend property sets
only the no-advice flag and writes the advisory container empty, while a
present extend list sets the advice-available flag and writes, for each
entry whose extendtitle equals the fixed recommendation title, one detail
block enumerating one paragraph per item of the first value list of the
entry; in both cases the branch pushes nothing to the main fragment list
(frag is none). -/
theorem C4_advisor_proposer (own a : JVal) (vfs afs : List (String × JVal))
    (entries : List JVal) (ha : a ≠ JVal.undef)
    (hm : objGet vfs "AICPUModel" = .obj afs) :
    (afs.lookup "extend" = none →
       stepEffect own a "msadvisor-proposer" (.obj vfs)
         = ⟨none, some "", false, true, false⟩) ∧
    (afs.lookup "extend" = some (.list entries) →
       (∀ e ∈ entries, entryOK e) →
       stepEffect own a "msadvisor-proposer" (.obj vfs)
         = ⟨none, some (String.join (specAdvisorContents a entries)), true, false, false⟩) ∧
    (∀ (vals : List JVal) (i : Nat), (detailParas a vals i).length = vals.length) := by
  refine ⟨?_, ?_, fun vals i => detailParas_length a vals i⟩
  · intro hne
    rw [stepEffect_proposer]
    simp [advisorEff, getAdvisorProposer, jsGetProp, hm, jsHasOwn, hne, String.join]
  · intro hsome hok
    rw [stepEffect_proposer]
    have hgeq : objGet afs "extend" = .list entries := by unfold objGet; rw [hsome]
    simp [advisorEff, getAdvisorProposer, jsGetProp, hm, jsHasOwn, hsome, hgeq,
          advisorFold_spec ha entries hok]

/-- C4 witness: the theorem applied to a concrete recommendation whose
value list holds two items. -/
theorem C4_witness :
    cFourDetails ≠ JVal.undef ∧
    (∀ e ∈ cFourEntries, entryOK e) ∧
    stepEffect JVal.undef cFourDetails "msadvisor-proposer" (.obj cFourVfs)
      = ⟨none, some (String.join (specAdvisorContents cFourDetails cFourEntries)),
          true, false, false⟩ := by
  have hok : ∀ e ∈ cFourEntries, entryOK e := by
    intro e he
    simp only [cFourEntries, List.mem_singleton] at he
    subst he
    simp only [entryOK]
    intro _
    exact ⟨[.str "op1", .str "op2"], [], rfl⟩
  exact ⟨by simp [cFourDetails], hok,
    (C4_advisor_proposer JVal.undef cFourDetails cFourVfs cFourAfs cFourEntries
      (by simp [cFourDetails]) rfl).2.1 rfl hok⟩

/-- C5 counterexample: a successfully processed two-field response performs
two helper-tips writes, not one: the write statement sits inside the
forEach, so the first write happens after the first field, before all
fields are processed, and the writes list is not the single full join. -/
theorem C5_counterexample :
    (runItems cFiveFields undefTable [] ["x_type_label", "y_type_label"]).1.err = false ∧
    (runItems cFiveFields undefTable [] ["x_type_label", "y_type_label"]).1.writes.length = 2 ∧
    (runItems cFiveFields undefTable [] ["x_type_label", "y_type_label"]).1.writes
      ≠ [String.join (runItems cFiveFields undefTable []
          ["x_type_label", "y_type_label"]).1.frags] :=
  ⟨rfl, rfl, by decide⟩

/-- C5 amended: on an error-free run the helper-tips target is written once
per response field (the write replaces content with the join of the
fragments so far), and the last write equals the join of the full fragment
list, so the final content does equal the full list. -/
theorem C5_amended_write_per_field (res : List (String × JVal)) (keys : List String)
    (T : String → JVal) (acc : List String)
    (herr : (runItems res T acc keys).1.err = false) :
    (runItems res T acc keys).1.writes.length = keys.length ∧
    (keys = [] ∨ (runItems res T acc keys).1.writes.getLast?
       = some (String.join (acc ++ (runItems res T acc keys).1.frags))) :=
  runItems_writes res keys T acc herr

/-- C5 witness: the amended theorem applied to the two-field response. -/
theorem C5_witness :
    (runItems cFiveFields undefTable [] ["x_type_label", "y_type_label"]).1.err = false ∧
    ((runItems cFiveFields undefTable [] ["x_type_label", "y_type_label"]).1.writes.length
        = (["x_type_label", "y_type_label"] : List String).length ∧
     ((["x_type_label", "y_type_label"] : List String) = [] ∨
      (runItems cFiveFields undefTable [] ["x_type_label", "y_type_label"]).1.writes.getLast?
        = some (String.join ([] ++ (runItems cFiveFields undefTable []
            ["x_type_label", "y_type_label"]).1.frags)))) :=
  ⟨rfl, C5_amended_write_per_field cFiveFields ["x_type_label", "y_type_label"]
    undefTable [] rfl⟩

/-- C6 counterexample: a processing failure does not leave the rendering
target in its pre-fetch empty state: with a first field processed
successfully and a second field hitting the relpace TypeError, the run
errors, yet helper-tips holds the first write. -/
theorem C6_counterexample :
    (runItems cSixFields cSixTable [] ["x_type_label", "multi"]).1.err = true ∧
    (initialPanel cSixTable).helperTips = "" ∧
    (getDataOfProfileHelper (initialPanel cSixTable)
        (.ok (.obj [("data", .obj cSixFields)]))).helperTips = suggestedFrag "undefined" ∧
    suggestedFrag "undefined" ≠ "" :=
  ⟨rfl, rfl, rfl, by decide⟩

/-- C6 amended: every failure is swallowed with no retry; on a request
failure the state is exactly unchanged (pre-fetch), while a processing
failure aborts the forEach but the writes already performed stay in the
rendering target, as the concrete two-field failing run shows. -/
theorem C6_amended_failures_swallowed :
    (∀ st : PanelState, getDataOfProfileHelper st (.error ()) = st) ∧
    (runItems cSixFields cSixTable [] ["x_type_label", "multi"]).1.err = true ∧
    (getDataOfProfileHelper (initialPanel cSixTable)
        (.ok (.obj [("data", .obj cSixFields)]))).helperTips = suggestedFrag "undefined" :=
  ⟨fun _ => rfl, rfl, rfl⟩

/-- C7: dispatching the same response twice yields the same fragment list
and the same sequence of helper-tips writes, even though the first dispatch
may have mutated the live localized table (the mutated entries are
rewritten with the same response values before being read again). -/
theorem C7_dispatch_idempotent (fields : List (String × JVal)) (T : String → JVal) :
    (runItems fields ((runItems fields T [] (fields.map Prod.fst)).2) []
        (fields.map Prod.fst)).1.frags
      = (runItems fields T [] (fields.map Prod.fst)).1.frags ∧
    (runItems fields ((runItems fields T [] (fields.map Prod.fst)).2) []
        (fields.map Prod.fst)).1.writes
      = (runItems fields T [] (fields.map Prod.fst)).1.writes :=
  ⟨(runItems_idem fields (fields.map Prod.fst) T []).1,
   (runItems_idem fields (fields.map Prod.fst) T []).2.1⟩

/-- C8: for minddata_device_queue_rate the fragment content is the
empty_rate template variant (the threshold-exceeded message) exactly when
empty_rate is strictly greater than empty_warning_threshold, and the
empty_warning_threshold variant otherwise. -/
theorem C8_rate_threshold_variant (own a : JVal) (fs : List (String × JVal)) (er et : Int)
    (h1 : objGet fs "empty_rate" = .num er)
    (h2 : objGet fs "empty_warning_threshold" = .num et) :
    stepEffect own a "minddata_device_queue_rate" (.obj fs)
      = fragEff (contentFrag
          (if et < er then tNamedOwn own "minddata_device_queue_rate" "empty_rate" (.obj fs)
           else tNamedOwn own "minddata_device_queue_rate" "empty_warning_threshold" (.obj fs))) := by
  unfold stepEffect
  rw [if_neg (by decide), if_pos (by decide), if_pos rfl]
  simp only [jsGetProp, h1, h2]
  simp [jsGT, toNumberOpt]

/-- C8 witness: the theorem applied with empty_rate 5 above threshold 3. -/
theorem C8_witness :
    objGet [("empty_rate", JVal.num 5), ("empty_warning_threshold", JVal.num 3)]
        "empty_rate" = .num 5 ∧
    objGet [("empty_rate", JVal.num 5), ("empty_warning_threshold", JVal.num 3)]
        "empty_warning_threshold" = .num 3 ∧
    stepEffect JVal.undef JVal.undef "minddata_device_queue_rate"
        (.obj [("empty_rate", .num 5), ("empty_warning_threshold", .num 3)])
      = fragEff (contentFrag
          (if (3 : Int) < 5 then
             tNamedOwn JVal.undef "minddata_device_queue_rate" "empty_rate"
               (.obj [("empty_rate", .num 5), ("empty_warning_threshold", .num 3)])
           else
             tNamedOwn JVal.undef "minddata_device_queue_rate" "empty_warning_threshold"
               (.obj [("empty_rate", .num 5), ("empty_warning_threshold", .num 3)]))) :=
  ⟨rfl, rfl, C8_rate_threshold_variant JVal.undef JVal.undef
    [("empty_rate", .num 5), ("empty_warning_threshold", .num 3)] 5 3 rfl rfl⟩

/-- C9: SvgFrame renders no svg element whenever either floored measurement
is non-positive, and otherwise publishes exactly the floored bounding-box
measurements; the component has only the mounted hook, so the embedding has
no other operation that could re-measure after mount. -/
theorem C9_svg_dimensions (w h : ℚ) :
    ((⌊w⌋ ≤ 0 ∨ ⌊h⌋ ≤ 0) → svgRender (svgMounted w h) = none) ∧
    (0 < ⌊w⌋ → 0 < ⌊h⌋ → svgRender (svgMounted w h) =
       some ⟨⌊w⌋, ⌊h⌋, "0 0 " ++ toString ⌊w⌋ ++ " " ++ toString ⌊h⌋⟩) := by
  constructor
  · intro hle
    simp only [svgRender, svgMounted]
    rw [if_neg]
    rintro ⟨hgt1, hgt2⟩
    rcases hle with hle | hle <;> omega
  · intro hgt1 hgt2
    simp only [svgRender, svgMounted]
    rw [if_pos ⟨hgt1, hgt2⟩]

/-- C9 witness: measurements 7/2 by 5/2 publish 3 by 2; a half-unit wide
measurement floors to zero and renders nothing. -/
theorem C9_witness :
    (0 < ⌊(7 / 2 : ℚ)⌋ ∧ 0 < ⌊(5 / 2 : ℚ)⌋ ∧
     svgRender (svgMounted (7 / 2 : ℚ) (5 / 2 : ℚ))
       = some ⟨⌊(7 / 2 : ℚ)⌋, ⌊(5 / 2 : ℚ)⌋,
           "0 0 " ++ toString ⌊(7 / 2 : ℚ)⌋ ++ " " ++ toString ⌊(5 / 2 : ℚ)⌋⟩) ∧
    ((⌊(1 / 2 : ℚ)⌋ ≤ 0 ∨ ⌊(4 : ℚ)⌋ ≤ 0) ∧
     svgRender (svgMounted (1 / 2 : ℚ) (4 : ℚ)) = none) :=
  ⟨⟨by norm_num, by norm_num,
    (C9_svg_dimensions (7 / 2) (5 / 2)).2 (by norm_num) (by norm_num)⟩,
   Or.inl (by norm_num),
   (C9_svg_dimensions (1 / 2) 4).1 (Or.inl (by norm_num))⟩

/-- C10: on the reachable values of adviceShow (none initially, and the set
is closed under the toggle) adviceToShow is an involution, each application
flips the v-show signal, and adviceChange is true exactly on block. -/
theorem C10_advice_toggle (s : String) (h : s = "none" ∨ s = "block") :
    adviceToShow (adviceToShow s) = s ∧
    adviceChange (adviceToShow s) = !adviceChange s ∧
    (adviceChange s = true ↔ s = "block") ∧
    (adviceToShow s = "none" ∨ adviceToShow s = "block") := by
  rcases h with h | h <;> subst h <;>
    exact ⟨by decide, by decide, by decide, by decide⟩

/-- C10 witness: the toggle theorem applied at the initial value none. -/
theorem C10_witness :
    ("none" = "none" ∨ "none" = "block") ∧
    (adviceToShow (adviceToShow "none") = "none" ∧
     adviceChange (adviceToShow "none") = !adviceChange "none" ∧
     (adviceChange "none" = true ↔ "none" = "block") ∧
     (adviceToShow "none" = "none" ∨ adviceToShow "none" = "block")) :=
  ⟨Or.inl rfl, C10_advice_toggle "none" (Or.inl rfl)⟩
